import Mathlib

/-!
Verification development for the minorbit2 n-body propagator
(src/minorbit2.py).  The numerical core — `grav_accel`, `stepYoshida8`,
the cycle loop of `main`, the validation error computation — is embedded
shallowly over ℝ (the Python code computes in IEEE double precision; the
embedding uses exact real arithmetic, and the floating-point-tolerance
claims are stated as explicit small bounds on the exact values of the
source's decimal literals).  Configuration reading and the JPL
state-vector retrieval loop are embedded over strings and explicit
response lists; the blocking network call and the regex machinery are
abstracted to their outcomes (HTTP status code, parse result), which is
exactly the granularity at which the claims speak about them.
-/

namespace Minorbit2

/-- Three-component vector of reals, standing for the numpy 3-arrays the
Python code uses for positions, velocities and accelerations. -/
structure Vec3 where
  x : ℝ
  y : ℝ
  z : ℝ

namespace Vec3

/-- Componentwise addition (`a + b` on numpy arrays). -/
noncomputable def add (a b : Vec3) : Vec3 := ⟨a.x + b.x, a.y + b.y, a.z + b.z⟩

/-- Componentwise subtraction (`a - b` on numpy arrays). -/
noncomputable def sub (a b : Vec3) : Vec3 := ⟨a.x - b.x, a.y - b.y, a.z - b.z⟩

/-- Scalar times vector (`s * v`, as in `grav_mag * grav_dir`). -/
noncomputable def smul (s : ℝ) (v : Vec3) : Vec3 := ⟨s * v.x, s * v.y, s * v.z⟩

/-- Vector times scalar (`v * s`, as in `mp.vel * cs[i]`). -/
noncomputable def scale (v : Vec3) (s : ℝ) : Vec3 := ⟨v.x * s, v.y * s, v.z * s⟩

/-- Vector divided by scalar (`v / s`, as in `(body.pos - mp.pos) / dist`). -/
noncomputable def divS (v : Vec3) (s : ℝ) : Vec3 := ⟨v.x / s, v.y / s, v.z / s⟩

/-- Euclidean norm, `np.linalg.norm`. -/
noncomputable def norm (v : Vec3) : ℝ := Real.sqrt (v.x ^ 2 + v.y ^ 2 + v.z ^ 2)

/-- The zero vector `np.array([0, 0, 0])`. -/
def zero : Vec3 := ⟨0, 0, 0⟩

end Vec3

/-- A massive body: `class MainBody` of minorbit2.py. -/
structure MainBody where
  name : String
  pos : Vec3
  GM : ℝ

/-- A minor planet (test particle): `class MP` of minorbit2.py. -/
structure MP where
  des : String
  pos : Vec3
  vel : Vec3

/-- Function `grav_accel(mp, bodies)`: fold over the body list accumulating
`accel = accel + grav_mag * grav_dir` with
`dist = |body.pos - mp.pos|`, `grav_dir = (body.pos - mp.pos) / dist`,
`grav_mag = body.GM / dist**2`, starting from `np.array([0,0,0])`. -/
noncomputable def grav_accel (mp : MP) (bodies : List MainBody) : Vec3 :=
  bodies.foldl
    (fun accel body =>
      let dist := Vec3.norm (Vec3.sub body.pos mp.pos)
      let grav_dir := Vec3.divS (Vec3.sub body.pos mp.pos) dist
      let grav_mag := body.GM / dist ^ 2
      Vec3.add accel (Vec3.smul grav_mag grav_dir))
    Vec3.zero

/-! Integrator constants of `stepYoshida8`, transcribed literal for
literal from minorbit2.py lines 160-174. -/

noncomputable def w1 : ℝ := 0.311790812418427e0
noncomputable def w2 : ℝ := -0.155946803821447e1
noncomputable def w3 : ℝ := -0.167896928259640e1
noncomputable def w4 : ℝ := 0.166335809963315e1
noncomputable def w5 : ℝ := -0.106458714789183e1
noncomputable def w6 : ℝ := 0.136934946416871e1
noncomputable def w7 : ℝ := 0.629030650210433e0
noncomputable def w0 : ℝ := 1.65899088454396

/-- The 15 velocity (kick) weights `ds` of `stepYoshida8`. -/
noncomputable def ds : List ℝ :=
  [w7, w6, w5, w4, w3, w2, w1, w0, w1, w2, w3, w4, w5, w6, w7]

/-- The 16 position (drift) weights `cs` of `stepYoshida8`. -/
noncomputable def cs : List ℝ :=
  [0.3145153251052165, 0.9991900571895715, 0.15238115813844, 0.29938547587066, -0.007805591481624963,
   -1.619218660405435, -0.6238386128980216, 0.9853908484811935, 0.9853908484811935, -0.6238386128980216,
   -1.619218660405435, -0.007805591481624963, 0.29938547587066, 0.15238115813844, 0.9991900571895715,
   0.3145153251052165]

/-- Drift phase of one sub-step: `mp.pos = mp.pos + mp.vel * c * dt`
for every particle. -/
noncomputable def driftPhase (c dt : ℝ) (mps : List MP) : List MP :=
  mps.map fun mp => { mp with pos := Vec3.add mp.pos ((mp.vel.scale c).scale dt) }

/-- Kick phase of one sub-step: given the acceleration list `accels`
(one entry per particle, in particle order),
`mp.vel = mp.vel + accels[imp] * d * dt` for every particle. -/
noncomputable def kickPhase (d dt : ℝ) (mps : List MP) (accels : List Vec3) : List MP :=
  List.zipWith (fun mp a => { mp with vel := Vec3.add mp.vel ((a.scale d).scale dt) }) mps accels

/-- One iteration of the `for i in range(15)` loop of `stepYoshida8`:
first every position is drifted by `cs[i]*dt`, then all accelerations
are collected into the `accels` list from the drifted positions, then
every velocity is kicked by `accels[imp]*ds[i]*dt`. -/
noncomputable def subStepY (bodies : List MainBody) (dt : ℝ) (mps : List MP) (i : ℕ) : List MP :=
  let mps1 := driftPhase (cs.getD i 0) dt mps
  let accels := mps1.map fun mp => grav_accel mp bodies
  kickPhase (ds.getD i 0) dt mps1 accels

/-- Function `stepYoshida8(mps, bodies, dt)`: 15 sub-steps in index order,
then the final drift `mp.pos = mp.pos + mp.vel * cs[15] * dt`. -/
noncomputable def stepYoshida8 (mps : List MP) (bodies : List MainBody) (dt : ℝ) : List MP :=
  let after := (List.range 15).foldl (subStepY bodies dt) mps
  driftPhase (cs.getD 15 0) dt after

/-- One sub-step written from the spec's words (§4.2, steps 1a-1c):
for every particle, drift `position += velocity * c[i] * dt`, compute
`accel_i = GravityModel(particle.position, bodies)` from the drifted
position and the same fixed body configuration, then kick
`velocity += accel_i * d[i] * dt`.  Because particles are mutually
independent within each phase, the spec formulation is given here as a
single pass over the particle list. -/
noncomputable def yoshidaSpecSub (bodies : List MainBody) (dt : ℝ) (mps : List MP) (i : ℕ) :
    List MP :=
  mps.map fun mp =>
    let pos' := Vec3.add mp.pos ((mp.vel.scale (cs.getD i 0)).scale dt)
    let accel := grav_accel { mp with pos := pos' } bodies
    { mp with pos := pos', vel := Vec3.add mp.vel ((accel.scale (ds.getD i 0)).scale dt) }

/-- The macro step written from the spec's words (§4.2): sub-steps
`i = 0..14` in order, then one final drift by `c[15] * dt`. -/
noncomputable def yoshidaSpecStep (mps : List MP) (bodies : List MainBody) (dt : ℝ) : List MP :=
  let after := (List.range 15).foldl (yoshidaSpecSub bodies dt) mps
  (after.map fun mp => { mp with pos := Vec3.add mp.pos ((mp.vel.scale (cs.getD 15 0)).scale dt) })

/-- The per-cycle state of `main`'s propagation loop: the minor planet
list and the massive-body list, both owned by the engine. -/
structure SimState where
  mps : List MP
  bodies : List MainBody

/-- One iteration of the `for i in range(15)` loop of `stepYoshida8`
threaded through the full simulation state: the loop body of the
source reads `bodies` and reassigns only `mp.pos` and `mp.vel`. -/
noncomputable def subStepYState (dt : ℝ) (s : SimState) (i : ℕ) : SimState :=
  { mps := subStepY s.bodies dt s.mps i, bodies := s.bodies }

/-- Step `stepYoshida8` threaded through the full simulation state: each of
the 15 sub-steps takes its body configuration from the state it
receives, then the final drift updates positions only. -/
noncomputable def stepYoshida8State (dt : ℝ) (s : SimState) : SimState :=
  let after := (List.range 15).foldl (subStepYState dt) s
  { after with mps := driftPhase (cs.getD 15 0) dt after.mps }

/-- The propagation loop of `main`: cycle `k` re-resolves the massive
bodies for epoch `t0 + k*dt` (here supplied by the external ephemeris
as `bodySeq k`) and calls `stepYoshida8(mps, bodies, dt)`.
`runCycles bodySeq dt mps n` is the particle list after cycles
`0, 1, ..., n-1` have run in order. -/
noncomputable def runCycles (bodySeq : ℕ → List MainBody) (dt : ℝ) (mps : List MP) :
    ℕ → List MP
  | 0 => mps
  | n + 1 => stepYoshida8 (runCycles bodySeq dt mps n) (bodySeq n) dt

/-! The simulation clock of `main` (lines 365-367).  Epochs and
durations are modelled as rational numbers of seconds; `datetime`
subtraction `(date_final - date_init).total_seconds()` is the plain
difference of epochs, and `timedelta(seconds=s)` addition is plain
addition, so the clock arithmetic is faithful to the source. -/

/-- Seconds per day, `day = 60 * 60 * 24`,, from `read_config`. -/
def day : ℚ := 60 * 60 * 24

/-- Cycle count `N_cycles = int(time_interval // dt) + 1` with
`time_interval = (date_final - date_init).total_seconds()`:
Python's `//` on non-negative operands (and on floats generally) is
floor division, and `int` of the resulting integral value is exact. -/
def n_cycles (t_0 t_f dtv : ℚ) : ℤ := ⌊(t_f - t_0) / dtv⌋ + 1

/-- Actual final epoch, `date_final_actual = date_init + timedelta(seconds=N_cycles * dt)`. -/
def date_final_actual (t_0 t_f dtv : ℚ) : ℚ := t_0 + (n_cycles t_0 t_f dtv : ℚ) * dtv

/-- Astronomical unit, `AU = 1.495979e8` km (minorbit2.py line 11). -/
noncomputable def AU : ℝ := 1.495979e8

/-- The per-particle validation error of `main` (line 440):
`error = np.linalg.norm(mp.pos - sv[0]) / AU`. -/
noncomputable def position_error (propagated truth : Vec3) : ℝ :=
  (Vec3.norm (Vec3.sub propagated truth)) / AU

/-- The validation loop of `main` (lines 435-441): for each particle,
in order, append `np.linalg.norm(mp.pos - sv[0]) / AU` to the error
list; the particles themselves are only read.  `truths` is the list of
positions fetched from the truth source at the actual final epoch. -/
noncomputable def validationErrors (mps : List MP) (truths : List Vec3) : List ℝ :=
  List.zipWith (fun mp sv_pos => position_error mp.pos sv_pos) mps truths

/-! The JPL Horizons retrieval loop `getMPJPL` (lines 107-144).  The
blocking HTTP call `requests.get(url)` is abstracted to its outcome:
one response per requested designation, carrying the HTTP status code
and the outcome of `parseMPJPL` on the response text (`some (pos, vel)`
when the position/velocity patterns are found, `none` when
`parseMPJPL` would raise `ValueError`). -/

/-- One HTTP response of the state-vector service, reduced to the two
attributes the source inspects: `status_code`, and what `parseMPJPL`
extracts from `text`. -/
structure JPLResponse where
  status_code : ℕ
  parsed : Option (Vec3 × Vec3)

/-- Function `getMPJPL`: iterate over the responses in request order; on status
200 append `parseMPJPL(response.text)` to `state_vectors` (an uncaught
`ValueError` from `parseMPJPL` aborts the whole call, modelled as
`Except.error`); on any other status only an error message is printed
and the loop continues with the next designation. -/
def getMPJPL : List JPLResponse → Except String (List (Vec3 × Vec3))
  | [] => .ok []
  | r :: rest =>
    if r.status_code = 200 then
      match r.parsed with
      | some sv => (getMPJPL rest).map (fun svs => sv :: svs)
      | none => .error "The required lines were not found in the text"
    else
      getMPJPL rest

/-- The particle-setup loop of `main` (lines 360-363):
`for i in range(len(MP_des)): sv = MP_statevectors[i]; mps.append(MP(MP_des[i], sv[0], sv[1]))`.
Indexing a too-short `MP_statevectors` raises `IndexError`, modelled as
`Except.error`; the recursion walks both lists in index order, failing
exactly when the designation list outlives the state-vector list. -/
def setupParticles : List String → List (Vec3 × Vec3) → Except String (List MP)
  | [], _ => .ok []
  | d :: des, svs =>
    match svs with
    | [] => .error "IndexError: list index out of range"
    | sv :: rest => (setupParticles des rest).map (fun tail => ⟨d, sv.1, sv.2⟩ :: tail)

/-! Configuration reading, `read_config` (lines 245-335).  The
directive scan and the presence checks are embedded faithfully; the
delegated conversions (`datetime.strptime` on the extracted date text,
`float` on the extracted number text, and the `(\d4)\s(alnum)`
designation regex) are external parsing per spec §1 and are kept as
the extracted raw strings, which is all the claims inspect. -/

/-- Python's `str.startswith(prefix)` — true when the line's leading
characters are exactly the given directive tag. -/
def startswith (line pre : String) : Bool := pre.data.isPrefixOf line.data

/-- The mutable locals of `read_config`'s line loop: each directive
variable is unassigned until a matching line is seen, and a later
matching line overwrites an earlier one. -/
structure RawConfig where
  t_0 : Option String
  t_f : Option String
  dtv : Option String
  MPdes : List String
  result_filename : Option String

/-- One iteration of `for line in lines` in `read_config`: the `elif`
chain checks the prefixes `"T0 "`, `"TF "`, `"DT "`, `"MP "`, `"RF "`
in that order.  Payload extraction follows the source slicing:
`line.split(";")[0][3:13]` with blanks removed for `T0`/`TF` (for `TF`
additionally `.split(" ")[0]`), `line[3:].split(";")[0].split(" ")[0]`
for `DT`, and `line[3:].split(";")[0].strip()` for `RF`; the `MP`
branch records the matched line. -/
def scanLine (acc : RawConfig) (line : String) : RawConfig :=
  if startswith line "T0 " then
    { acc with t_0 := some ((((line.splitOn ";").headD "").drop 3).take 10
        |>.replace " " "") }
  else if startswith line "TF " then
    { acc with t_f := some ((((((line.splitOn ";").headD "").drop 3).take 10).splitOn " ").headD ""
        |>.replace " " "") }
  else if startswith line "DT " then
    { acc with dtv := some (((((line.drop 3).splitOn ";").headD "").splitOn " ").headD ""
        |>.replace " " "") }
  else if startswith line "MP " then
    { acc with MPdes := acc.MPdes ++ [line] }
  else if startswith line "RF " then
    { acc with result_filename := some (((line.drop 3).splitOn ";").headD "" |>.trim) }
  else acc

/-- Function `read_config` on the lines of the input file: scan every line,
then check the required directives in source order (`T0`, `TF`, `DT`,
`RF`); printing an unassigned variable raises `UnboundLocalError`,
which the source turns into an error message and `quit()` — modelled
as `Except.error` — so a missing directive is fatal and the parsed
configuration is never returned. -/
def read_config (lines : List String) :
    Except String (String × String × String × List String × String) :=
  let c := lines.foldl scanLine ⟨none, none, none, [], none⟩
  match c.t_0 with
  | none => .error "ERROR: T0 not assigned!"
  | some t0 =>
    match c.t_f with
    | none => .error "ERROR: TF not assigned!"
    | some tf =>
      match c.dtv with
      | none => .error "ERROR: DT not assigned!"
      | some dtv =>
        match c.result_filename with
        | none => .error "ERROR: RF not assigned!"
        | some rf => .ok (t0, tf, dtv, c.MPdes, rf)

/-! ### Helper lemmas -/

theorem cs_sum_near_one : |cs.sum - 1| ≤ 1e-15 := by
  simp only [cs, List.sum_cons, List.sum_nil]
  rw [abs_le]
  constructor <;> norm_num

theorem ds_sum_eq_one : ds.sum = 1 := by
  simp only [ds, w0, w1, w2, w3, w4, w5, w6, w7, List.sum_cons, List.sum_nil]
  norm_num

/-! ### Claim theorems -/

/-- C3: the integrator's fixed coefficient sequences satisfy
`sum(c[0..15]) == 1.0` and `sum(d[0..14]) == 1.0` within floating-point
tolerance (the exact rational value of the 16 `cs` literals differs
from 1 by 1.26e-16; the 15 `ds` literals sum to 1 exactly). -/
theorem coefficient_normalization :
    |cs.sum - 1| ≤ 1e-15 ∧ ds.sum = 1 :=
  ⟨cs_sum_near_one, ds_sum_eq_one⟩

/-- C4: for every `t0`, `tf` and `dt > 0`, the engine runs
`cycle_count = floor((tf - t0) / dt) + 1` macro cycles and the actual
final epoch is `t0 + cycle_count * dt`; for `tf = t0 + 10 days`
(2024-01-01 to 2024-01-11) and `dt = 2 days`, `cycle_count = 6` and
the actual final epoch is `t0 + 12 days` (2024-01-13), exceeding the
requested `tf` — an accepted overshoot. -/
theorem cycle_count_formula (t_0 t_f dtv : ℚ) (hdt : 0 < dtv) :
    n_cycles t_0 t_f dtv = ⌊(t_f - t_0) / dtv⌋ + 1 ∧
    date_final_actual t_0 t_f dtv = t_0 + (n_cycles t_0 t_f dtv : ℚ) * dtv ∧
    n_cycles t_0 (t_0 + 10 * day) (2 * day) = 6 ∧
    date_final_actual t_0 (t_0 + 10 * day) (2 * day) = t_0 + 12 * day ∧
    t_0 + 10 * day < date_final_actual t_0 (t_0 + 10 * day) (2 * day) := by
  have hfloor : n_cycles t_0 (t_0 + 10 * day) (2 * day) = 6 := by
    unfold n_cycles day
    norm_num
  refine ⟨rfl, rfl, hfloor, ?_, ?_⟩
  · unfold date_final_actual
    rw [hfloor]
    unfold day
    norm_num
  · unfold date_final_actual
    rw [hfloor]
    unfold day
    norm_num

/-- C6: the validation step reports, for each particle in order, the
error `|propagated_position - true_position| / AU` with
`AU = 1.495979e8`; for propagated position `(1,0,0)` and true position
`(1 + 1.495979e8, 0, 0)` the reported error is exactly `1.0` AU, and
the validation computes one error per particle without altering the
particle states (`validationErrors` only reads them). -/
theorem validation_error_au :
    AU = 1.495979e8 ∧
    position_error ⟨1, 0, 0⟩ ⟨1 + 1.495979e8, 0, 0⟩ = 1 ∧
    (∀ mps truths, (validationErrors mps truths).length = min mps.length truths.length) ∧
    (∀ mps truths, validationErrors mps truths
        = List.zipWith (fun mp sv_pos => position_error mp.pos sv_pos) mps truths) := by
  refine ⟨rfl, ?_, ?_, fun _ _ => rfl⟩
  · unfold position_error AU
    have hsub : Vec3.sub ⟨1, 0, 0⟩ ⟨1 + 1.495979e8, 0, 0⟩ = ⟨-1.495979e8, 0, 0⟩ := by
      simp only [Vec3.sub, Vec3.mk.injEq]
      norm_num
    rw [hsub]
    unfold Vec3.norm
    rw [show ((-1.495979e8 : ℝ) ^ 2 + 0 ^ 2 + 0 ^ 2) = (1.495979e8 : ℝ) ^ 2 by norm_num]
    rw [Real.sqrt_sq (by norm_num)]
    norm_num
  · intro mps truths
    exact List.length_zipWith _ _ _

/-- Witness for C4 at `t_0 = 0`, `t_f = 0`, `dt = 1`. -/
theorem cycle_count_formula_witness :
    (0 : ℚ) < 1 ∧
    (n_cycles 0 0 1 = ⌊((0 : ℚ) - 0) / 1⌋ + 1 ∧
     date_final_actual 0 0 1 = 0 + (n_cycles 0 0 1 : ℚ) * 1 ∧
     n_cycles 0 (0 + 10 * day) (2 * day) = 6 ∧
     date_final_actual 0 (0 + 10 * day) (2 * day) = 0 + 12 * day ∧
     0 + 10 * day < date_final_actual 0 (0 + 10 * day) (2 * day)) :=
  ⟨by norm_num, cycle_count_formula 0 0 1 (by norm_num)⟩

/-! ### Vector algebra lemmas for the gravity model -/

theorem Vec3.add_zero_right (v : Vec3) : Vec3.add v Vec3.zero = v := by
  cases v
  simp [Vec3.add, Vec3.zero]

theorem Vec3.add_assoc' (a b c : Vec3) :
    Vec3.add (Vec3.add a b) c = Vec3.add a (Vec3.add b c) := by
  cases a; cases b; cases c
  simp only [Vec3.add, Vec3.mk.injEq]
  refine ⟨by ring, by ring, by ring⟩

/-- Accumulating fold of `accel = accel + f body` equals the prepended
sum of the per-body terms. -/
theorem foldl_add_eq_sum (f : MainBody → Vec3) (l : List MainBody) (init : Vec3) :
    l.foldl (fun accel b => Vec3.add accel (f b)) init
      = Vec3.add init ((l.map f).foldr Vec3.add Vec3.zero) := by
  induction l generalizing init with
  | nil => simp [Vec3.add_zero_right]
  | cons b bs ih =>
    simp only [List.foldl_cons, List.map_cons, List.foldr_cons]
    rw [ih, Vec3.add_assoc']

/-- The scalar identity behind collapsing `GM/dist² · (Δ/dist)` into
`GM/dist³ · Δ`; it holds for every real `d`, zero included, because
division by zero is zero. -/
theorem div_sq_mul_div (a x d : ℝ) : a / d ^ 2 * (x / d) = a / d ^ 3 * x := by
  rw [div_mul_div_comm, div_mul_eq_mul_div, ← pow_succ]

/-- The net gravitational acceleration written from the spec's words:
`accel = Σ_body GM_body · (pos_body − pos_particle) / |pos_body − pos_particle|³`,
summed over every body of the list. -/
noncomputable def gravAccelSpec (mp : MP) (bodies : List MainBody) : Vec3 :=
  (bodies.map fun body =>
      Vec3.smul (body.GM / (Vec3.norm (Vec3.sub body.pos mp.pos)) ^ 3)
        (Vec3.sub body.pos mp.pos)).foldr
    Vec3.add Vec3.zero

/-- C2: for every particle position and every body set in which no body
position coincides with the particle position, `grav_accel` returns the
sum over all bodies of `GM_body · (pos_body − pos_particle) /
|pos_body − pos_particle|³`, with every body included in the sum; the
embedding is a pure function of `mp` and `bodies`, mutating neither. -/
theorem grav_accel_sum_formula (mp : MP) (bodies : List MainBody)
    (h : ∀ b ∈ bodies, b.pos ≠ mp.pos) :
    grav_accel mp bodies = gravAccelSpec mp bodies := by
  unfold grav_accel gravAccelSpec
  rw [foldl_add_eq_sum]
  have hzero : ∀ s, Vec3.add Vec3.zero s = s := by
    intro s; cases s; simp [Vec3.add, Vec3.zero]
  rw [hzero]
  congr 1
  apply List.map_congr_left
  intro b _
  simp only [Vec3.smul, Vec3.divS, Vec3.mk.injEq]
  refine ⟨div_sq_mul_div _ _ _, div_sq_mul_div _ _ _, div_sq_mul_div _ _ _⟩

/-- Witness for C2: one body of GM 5 at `(1,0,0)`, particle at the
origin. -/
theorem grav_accel_sum_formula_witness :
    (∀ b ∈ [MainBody.mk "SUN" ⟨1, 0, 0⟩ 5], b.pos ≠ (MP.mk "p" ⟨0, 0, 0⟩ ⟨0, 0, 0⟩).pos) ∧
    grav_accel (MP.mk "p" ⟨0, 0, 0⟩ ⟨0, 0, 0⟩) [MainBody.mk "SUN" ⟨1, 0, 0⟩ 5]
      = gravAccelSpec (MP.mk "p" ⟨0, 0, 0⟩ ⟨0, 0, 0⟩) [MainBody.mk "SUN" ⟨1, 0, 0⟩ 5] := by
  have h : ∀ b ∈ [MainBody.mk "SUN" ⟨1, 0, 0⟩ 5],
      b.pos ≠ (MP.mk "p" ⟨0, 0, 0⟩ ⟨0, 0, 0⟩).pos := by
    intro b hb
    simp only [List.mem_singleton] at hb
    subst hb
    simp only [Vec3.mk.injEq, ne_eq, not_and]
    intro h1
    exact absurd h1 one_ne_zero
  exact ⟨h, grav_accel_sum_formula _ _ h⟩

/-- Zipping a list with a mapped copy of itself fuses into one map. -/
theorem zipWith_self_map {α β γ : Type} (f : α → β → γ) (g : α → β) (l : List α) :
    List.zipWith f l (l.map g) = l.map fun a => f a (g a) := by
  induction l with
  | nil => rfl
  | cons a as ih => simp only [List.map_cons, List.zipWith_cons_cons, ih]

/-- One source sub-step (drift phase, acceleration collection, kick
phase) coincides with the spec's per-particle description of the same
sub-step. -/
theorem subStepY_eq_specSub (bodies : List MainBody) (dt : ℝ) (mps : List MP) (i : ℕ) :
    subStepY bodies dt mps i = yoshidaSpecSub bodies dt mps i := by
  unfold subStepY yoshidaSpecSub kickPhase driftPhase
  rw [zipWith_self_map, List.map_map]
  rfl

/-- C1: one call to `stepYoshida8` performs exactly 15 sub-steps in
index order, each consisting of a drift of every position by
`velocity * c[i] * dt`, then the computation of every acceleration
from the fixed body configuration at the drifted positions, then a
kick of every velocity by `acceleration * d[i] * dt`, followed by one
final drift by `velocity * c[15] * dt`; the phased source loop equals
the spec's barrier-ordered description (`yoshidaSpecStep`), whose
accelerations are computed only from sub-step-`i` drifted positions. -/
theorem stepYoshida8_matches_spec (mps : List MP) (bodies : List MainBody) (dt : ℝ) :
    stepYoshida8 mps bodies dt = yoshidaSpecStep mps bodies dt := by
  unfold stepYoshida8 yoshidaSpecStep
  have h : subStepY bodies dt = yoshidaSpecSub bodies dt := by
    funext mps i
    exact subStepY_eq_specSub bodies dt mps i
  rw [h]
  rfl

/-- Threading the whole simulation state through the sub-step loop
leaves the body list untouched and feeds every sub-step the body list
the step was invoked with. -/
theorem foldl_subStepYState_eq (dt : ℝ) (l : List ℕ) (s : SimState) :
    l.foldl (subStepYState dt) s = ⟨l.foldl (subStepY s.bodies dt) s.mps, s.bodies⟩ := by
  induction l generalizing s with
  | nil => rfl
  | cons i is ih =>
    simp only [List.foldl_cons]
    rw [ih]
    rfl

/-- C9: the step `stepYoshida8` treats the massive-body configuration as fixed
for the whole macro step: the state-threaded step neither modifies any
body's position, GM or name, nor re-resolves body positions between
sub-steps — its particle result equals `stepYoshida8` run against the
body list that was current at invocation. -/
theorem bodies_fixed_during_step (s : SimState) (dt : ℝ) :
    (stepYoshida8State dt s).bodies = s.bodies ∧
    (stepYoshida8State dt s).mps = stepYoshida8 s.mps s.bodies dt := by
  unfold stepYoshida8State stepYoshida8
  rw [foldl_subStepYState_eq]
  generalize List.foldl (subStepY s.bodies dt) s.mps (List.range 15) = F
  exact ⟨rfl, rfl⟩

/-! ### Zero-force lemmas -/

/-- With every gravitational parameter zero, each fold step of
`grav_accel` adds the zero vector and the accumulator passes through
unchanged. -/
theorem grav_accel_foldl_id (mp : MP) (l : List MainBody) (h : ∀ b ∈ l, b.GM = 0) :
    ∀ init : Vec3,
      l.foldl
        (fun accel body =>
          let dist := Vec3.norm (Vec3.sub body.pos mp.pos)
          let grav_dir := Vec3.divS (Vec3.sub body.pos mp.pos) dist
          let grav_mag := body.GM / dist ^ 2
          Vec3.add accel (Vec3.smul grav_mag grav_dir)) init = init := by
  induction l with
  | nil => intro init; rfl
  | cons b bs ih =>
    intro init
    have hb : b.GM = 0 := h b (List.mem_cons_self b bs)
    have hrest : ∀ x ∈ bs, x.GM = 0 := fun x hx => h x (List.mem_cons_of_mem b hx)
    simp only [List.foldl_cons]
    rw [ih hrest]
    cases init with
    | mk ix iy iz =>
      simp only [Vec3.add, Vec3.smul, hb, zero_div, Vec3.mk.injEq]
      refine ⟨by ring, by ring, by ring⟩

/-- Acceleration `grav_accel` vanishes when every body has `GM = 0`. -/
theorem grav_accel_zero_GM (mp : MP) (bodies : List MainBody)
    (h : ∀ b ∈ bodies, b.GM = 0) : grav_accel mp bodies = Vec3.zero :=
  grav_accel_foldl_id mp bodies h Vec3.zero

/-- With zero gravity the kick phase is the identity, so a sub-step
reduces to its drift phase. -/
theorem subStepY_zero_GM (bodies : List MainBody) (dt : ℝ) (mps : List MP) (i : ℕ)
    (h : ∀ b ∈ bodies, b.GM = 0) :
    subStepY bodies dt mps i = driftPhase (cs.getD i 0) dt mps := by
  have hz : ∀ mp ∈ driftPhase (cs.getD i 0) dt mps, grav_accel mp bodies = Vec3.zero :=
    fun mp _ => grav_accel_zero_GM mp bodies h
  show List.zipWith
      (fun mp a => { mp with vel := Vec3.add mp.vel ((a.scale (ds.getD i 0)).scale dt) })
      (driftPhase (cs.getD i 0) dt mps)
      ((driftPhase (cs.getD i 0) dt mps).map fun mp => grav_accel mp bodies)
    = driftPhase (cs.getD i 0) dt mps
  rw [show (driftPhase (cs.getD i 0) dt mps).map (fun mp => grav_accel mp bodies)
        = (driftPhase (cs.getD i 0) dt mps).map (fun _ => Vec3.zero)
      from List.map_congr_left hz]
  rw [zipWith_self_map]
  have hid : ∀ mp : MP,
      { mp with vel := Vec3.add mp.vel ((Vec3.zero.scale (ds.getD i 0)).scale dt) } = mp := by
    intro mp
    cases mp with
    | mk d p v =>
      cases v with
      | mk vx vy vz =>
        simp [Vec3.zero, Vec3.scale, Vec3.add]
  calc (driftPhase (cs.getD i 0) dt mps).map
        (fun mp => { mp with vel := Vec3.add mp.vel ((Vec3.zero.scale (ds.getD i 0)).scale dt) })
      = (driftPhase (cs.getD i 0) dt mps).map id :=
        List.map_congr_left (fun mp _ => hid mp)
    _ = driftPhase (cs.getD i 0) dt mps := List.map_id _

/-- Two successive drifts with the same `dt` accumulate their
coefficients. -/
theorem driftPhase_comp (c1 c2 dtv : ℝ) (mps : List MP) :
    driftPhase c1 dtv (driftPhase c2 dtv mps) = driftPhase (c2 + c1) dtv mps := by
  unfold driftPhase
  rw [List.map_map]
  apply List.map_congr_left
  intro mp _
  cases mp with
  | mk d p v =>
    cases p with
    | mk px py pz =>
      cases v with
      | mk vx vy vz =>
        simp only [Function.comp, Vec3.add, Vec3.scale, MP.mk.injEq, Vec3.mk.injEq]
        refine ⟨trivial, ⟨by ring, by ring, by ring⟩, trivial⟩

/-- A drift with coefficient zero changes nothing. -/
theorem driftPhase_zero (dtv : ℝ) (mps : List MP) : driftPhase 0 dtv mps = mps := by
  unfold driftPhase
  calc mps.map (fun mp => { mp with pos := Vec3.add mp.pos ((mp.vel.scale 0).scale dtv) })
      = mps.map id := by
        apply List.map_congr_left
        intro mp _
        cases mp with
        | mk d p v =>
          cases p with
          | mk px py pz =>
            cases v with
            | mk vx vy vz =>
              simp only [Vec3.add, Vec3.scale, id_eq, MP.mk.injEq, Vec3.mk.injEq]
              refine ⟨trivial, ⟨by ring, by ring, by ring⟩, trivial⟩
    _ = mps := List.map_id _

/-- Evaluating a list as the sum of its `getD` entries over
`range length`. -/
theorem range_getD_sum (l : List ℝ) :
    ((List.range l.length).map (fun i => l.getD i 0)).sum = l.sum := by
  induction l with
  | nil => rfl
  | cons a as ih =>
    rw [List.length_cons, List.range_succ_eq_map, List.map_cons, List.map_map]
    have hcomp : ((fun i => (a :: as).getD i 0) ∘ Nat.succ) = fun i => as.getD i 0 := by
      funext i
      simp [List.getD_cons_succ]
    rw [List.sum_cons, List.sum_cons, List.getD_cons_zero, hcomp, ih]

/-- Under zero gravity, the 15 sub-steps of the source loop collapse
to a single drift by the partial sum of the `cs` coefficients. -/
theorem foldl_substep_zero_GM (bodies : List MainBody) (dtv : ℝ)
    (h : ∀ b ∈ bodies, b.GM = 0) (mps : List MP) (n : ℕ) :
    (List.range n).foldl (subStepY bodies dtv) mps
      = driftPhase (((List.range n).map (fun i => cs.getD i 0)).sum) dtv mps := by
  induction n with
  | zero =>
    simp only [List.range_zero, List.foldl_nil, List.map_nil, List.sum_nil]
    rw [driftPhase_zero]
  | succ n ih =>
    rw [List.range_succ, List.foldl_append, ih,
      List.foldl_cons, List.foldl_nil,
      subStepY_zero_GM bodies dtv _ n h, driftPhase_comp,
      List.map_append, List.sum_append, List.map_cons, List.map_nil,
      List.sum_cons, List.sum_nil, add_zero]

/-- Under zero gravity one whole macro step is a single drift by
`cs.sum * dt`. -/
theorem stepYoshida8_zero_GM (mps : List MP) (bodies : List MainBody) (dtv : ℝ)
    (h : ∀ b ∈ bodies, b.GM = 0) :
    stepYoshida8 mps bodies dtv = driftPhase cs.sum dtv mps := by
  unfold stepYoshida8
  rw [foldl_substep_zero_GM bodies dtv h mps 15, driftPhase_comp]
  have h16 : ((List.range 15).map (fun i => cs.getD i 0)).sum + cs.getD 15 0 = cs.sum := by
    have h1 := range_getD_sum cs
    rw [show cs.length = 16 from rfl, List.range_succ, List.map_append, List.sum_append,
      List.map_cons, List.map_nil, List.sum_cons, List.sum_nil, add_zero] at h1
    exact h1
  rw [h16]

/-- Under zero gravity `N` macro cycles drift by `N * cs.sum * dt`,
whatever body positions the ephemeris supplies each cycle. -/
theorem runCycles_zero_GM (bodySeq : ℕ → List MainBody) (dtv : ℝ) (mps : List MP) (N : ℕ)
    (h : ∀ k, ∀ b ∈ bodySeq k, b.GM = 0) :
    runCycles bodySeq dtv mps N = driftPhase ((N : ℝ) * cs.sum) dtv mps := by
  induction N with
  | zero =>
    rw [runCycles, Nat.cast_zero, zero_mul, driftPhase_zero]
  | succ n ih =>
    rw [runCycles, ih, stepYoshida8_zero_GM _ _ _ (h n), driftPhase_comp,
      show (n : ℝ) * cs.sum + cs.sum = ((n + 1 : ℕ) : ℝ) * cs.sum by push_cast; ring]

/-- The distance between a drift by `N * cs.sum * dt` and the ideal
drift by `N * dt` is at most `N * |dt| * |velocity| * 1e-15`, because
the exact value of the `cs` literals sums to within `1e-15` of one. -/
theorem drift_error_bound (p v : Vec3) (dtv : ℝ) (N : ℕ) :
    Vec3.norm (Vec3.sub (Vec3.add p ((v.scale ((N : ℝ) * cs.sum)).scale dtv))
        (Vec3.add p ((v.scale (N : ℝ)).scale dtv)))
      ≤ (N : ℝ) * |dtv| * Vec3.norm v * 1e-15 := by
  obtain ⟨px, py, pz⟩ := p
  obtain ⟨vx, vy, vz⟩ := v
  have hsub : Vec3.sub
      (Vec3.add ⟨px, py, pz⟩ ((Vec3.scale ⟨vx, vy, vz⟩ ((N : ℝ) * cs.sum)).scale dtv))
      (Vec3.add ⟨px, py, pz⟩ ((Vec3.scale ⟨vx, vy, vz⟩ (N : ℝ)).scale dtv))
      = ⟨vx * ((N : ℝ) * dtv * (cs.sum - 1)), vy * ((N : ℝ) * dtv * (cs.sum - 1)),
         vz * ((N : ℝ) * dtv * (cs.sum - 1))⟩ := by
    simp only [Vec3.sub, Vec3.add, Vec3.scale, Vec3.mk.injEq]
    refine ⟨by ring, by ring, by ring⟩
  rw [hsub]
  have hnorm : Vec3.norm ⟨vx * ((N : ℝ) * dtv * (cs.sum - 1)),
      vy * ((N : ℝ) * dtv * (cs.sum - 1)), vz * ((N : ℝ) * dtv * (cs.sum - 1))⟩
      = |(N : ℝ) * dtv * (cs.sum - 1)| * Vec3.norm ⟨vx, vy, vz⟩ := by
    unfold Vec3.norm
    rw [show (vx * ((N : ℝ) * dtv * (cs.sum - 1))) ^ 2
          + (vy * ((N : ℝ) * dtv * (cs.sum - 1))) ^ 2
          + (vz * ((N : ℝ) * dtv * (cs.sum - 1))) ^ 2
        = ((N : ℝ) * dtv * (cs.sum - 1)) ^ 2 * (vx ^ 2 + vy ^ 2 + vz ^ 2) by ring]
    rw [Real.sqrt_mul (sq_nonneg _), Real.sqrt_sq_eq_abs]
  rw [hnorm]
  have habs : |(N : ℝ) * dtv * (cs.sum - 1)| ≤ (N : ℝ) * |dtv| * 1e-15 := by
    rw [abs_mul, abs_mul, Nat.abs_cast]
    exact mul_le_mul_of_nonneg_left cs_sum_near_one (by positivity)
  calc |(N : ℝ) * dtv * (cs.sum - 1)| * Vec3.norm ⟨vx, vy, vz⟩
      ≤ ((N : ℝ) * |dtv| * 1e-15) * Vec3.norm ⟨vx, vy, vz⟩ :=
        mul_le_mul_of_nonneg_right habs (Real.sqrt_nonneg _)
    _ = (N : ℝ) * |dtv| * Vec3.norm ⟨vx, vy, vz⟩ * 1e-15 := by ring

/-- C5: with every massive body's `GM` equal to zero, propagating for
`N` macro cycles leaves every particle's velocity unchanged and moves
its position by exactly `velocity * dt * N * cs.sum`; since the `cs`
coefficients sum to within `1e-15` of one, the final position agrees
with `initial_position + initial_velocity * dt * N` to floating-point
precision: the distance between the two is at most
`N * |dt| * |velocity| * 1e-15`. -/
theorem zero_force_invariance (bodySeq : ℕ → List MainBody) (dtv : ℝ) (mps : List MP) (N : ℕ)
    (hGM : ∀ k, ∀ b ∈ bodySeq k, b.GM = 0) :
    runCycles bodySeq dtv mps N
      = mps.map (fun mp =>
          { mp with pos := Vec3.add mp.pos ((mp.vel.scale ((N : ℝ) * cs.sum)).scale dtv) }) ∧
    ∀ mp : MP,
      Vec3.norm (Vec3.sub
          (Vec3.add mp.pos ((mp.vel.scale ((N : ℝ) * cs.sum)).scale dtv))
          (Vec3.add mp.pos ((mp.vel.scale (N : ℝ)).scale dtv)))
        ≤ (N : ℝ) * |dtv| * Vec3.norm mp.vel * 1e-15 :=
  ⟨runCycles_zero_GM bodySeq dtv mps N hGM,
   fun mp => drift_error_bound mp.pos mp.vel dtv N⟩

/-- Witness for C5: one body of zero GM, one particle, one cycle,
`dt = 1`. -/
theorem zero_force_invariance_witness :
    (∀ k : ℕ, ∀ b ∈ (fun _ : ℕ => [MainBody.mk "SUN" ⟨1, 0, 0⟩ 0]) k, b.GM = 0) ∧
    (runCycles (fun _ => [MainBody.mk "SUN" ⟨1, 0, 0⟩ 0]) 1
        [MP.mk "p" ⟨0, 0, 0⟩ ⟨1, 2, 3⟩] 1
      = [MP.mk "p" ⟨0, 0, 0⟩ ⟨1, 2, 3⟩].map (fun mp =>
          { mp with pos := Vec3.add mp.pos ((mp.vel.scale (((1 : ℕ) : ℝ) * cs.sum)).scale 1) }) ∧
    ∀ mp : MP,
      Vec3.norm (Vec3.sub
          (Vec3.add mp.pos ((mp.vel.scale (((1 : ℕ) : ℝ) * cs.sum)).scale 1))
          (Vec3.add mp.pos ((mp.vel.scale ((1 : ℕ) : ℝ)).scale 1)))
        ≤ ((1 : ℕ) : ℝ) * |(1 : ℝ)| * Vec3.norm mp.vel * 1e-15) := by
  have h : ∀ k : ℕ, ∀ b ∈ (fun _ : ℕ => [MainBody.mk "SUN" ⟨1, 0, 0⟩ 0]) k, b.GM = 0 := by
    intro k b hb
    simp only [List.mem_singleton] at hb
    subst hb
    rfl
  exact ⟨h, zero_force_invariance (fun _ => [MainBody.mk "SUN" ⟨1, 0, 0⟩ 0]) 1
    [MP.mk "p" ⟨0, 0, 0⟩ ⟨1, 2, 3⟩] 1 h⟩

/-- Deleting a non-success response from the request sequence does not
change `getMPJPL`'s result: the loop neither aborts on it nor records
an entry for it. -/
theorem getMPJPL_erase_failure (rs1 rs2 : List JPLResponse) (r : JPLResponse)
    (h : r.status_code ≠ 200) :
    getMPJPL (rs1 ++ r :: rs2) = getMPJPL (rs1 ++ rs2) := by
  induction rs1 with
  | nil =>
    simp only [List.nil_append, getMPJPL, if_neg h]
  | cons a as ih =>
    simp only [List.cons_append, getMPJPL, List.append_eq, ih]

/-! ### Configuration-scan lemmas -/

theorem scanLine_t0_skip (acc : RawConfig) (l : String) (h : ¬ startswith l "T0 ") :
    (scanLine acc l).t_0 = acc.t_0 := by
  unfold scanLine
  split_ifs with h1 h2 h3 h4 h5 <;> first | rfl | exact absurd h1 h

theorem scanLine_tf_skip (acc : RawConfig) (l : String) (h : ¬ startswith l "TF ") :
    (scanLine acc l).t_f = acc.t_f := by
  unfold scanLine
  split_ifs with h1 h2 h3 h4 h5 <;> first | rfl | exact absurd h2 h

theorem scanLine_dt_skip (acc : RawConfig) (l : String) (h : ¬ startswith l "DT ") :
    (scanLine acc l).dtv = acc.dtv := by
  unfold scanLine
  split_ifs with h1 h2 h3 h4 h5 <;> first | rfl | exact absurd h3 h

theorem scanLine_rf_skip (acc : RawConfig) (l : String) (h : ¬ startswith l "RF ") :
    (scanLine acc l).result_filename = acc.result_filename := by
  unfold scanLine
  split_ifs with h1 h2 h3 h4 h5 <;> first | rfl | exact absurd h5 h

/-- An optional directive field that starts out unassigned stays
unassigned through the whole line scan when no line carries its
prefix. -/
theorem foldl_scanLine_none (f : RawConfig → Option String) (p : String)
    (hstep : ∀ acc l, ¬ startswith l p → f (scanLine acc l) = f acc)
    (lines : List String) :
    ∀ acc : RawConfig, f acc = none → (∀ l ∈ lines, ¬ startswith l p) →
      f (lines.foldl scanLine acc) = none := by
  induction lines with
  | nil => intro acc hacc _; exact hacc
  | cons l ls ih =>
    intro acc hacc hl
    rw [List.foldl_cons]
    refine ih (scanLine acc l) ?_ (fun x hx => hl x (List.mem_cons_of_mem l hx))
    rw [hstep acc l (hl l (List.mem_cons_self l ls))]
    exact hacc

/-- C8: if any one of the required directives `T0`, `TF`, `DT`, `RF`
is absent from the input lines, `read_config` terminates with a fatal
error and never returns a parsed configuration, so propagation never
starts. -/
theorem missing_directive_fatal (lines : List String)
    (h : (∀ l ∈ lines, ¬ startswith l "T0 ") ∨ (∀ l ∈ lines, ¬ startswith l "TF ")
       ∨ (∀ l ∈ lines, ¬ startswith l "DT ") ∨ (∀ l ∈ lines, ¬ startswith l "RF ")) :
    ∃ e, read_config lines = Except.error e := by
  simp only [read_config]
  rcases h with h | h | h | h
  · have hc : (lines.foldl scanLine ⟨none, none, none, [], none⟩).t_0 = none :=
      foldl_scanLine_none (fun c => c.t_0) "T0 " scanLine_t0_skip lines _ rfl h
    rw [hc]
    exact ⟨_, rfl⟩
  · have hc : (lines.foldl scanLine ⟨none, none, none, [], none⟩).t_f = none :=
      foldl_scanLine_none (fun c => c.t_f) "TF " scanLine_tf_skip lines _ rfl h
    cases h0 : (lines.foldl scanLine ⟨none, none, none, [], none⟩).t_0 with
    | none => exact ⟨_, rfl⟩
    | some t0 => rw [hc]; exact ⟨_, rfl⟩
  · have hc : (lines.foldl scanLine ⟨none, none, none, [], none⟩).dtv = none :=
      foldl_scanLine_none (fun c => c.dtv) "DT " scanLine_dt_skip lines _ rfl h
    cases h0 : (lines.foldl scanLine ⟨none, none, none, [], none⟩).t_0 with
    | none => exact ⟨_, rfl⟩
    | some t0 =>
      cases h1 : (lines.foldl scanLine ⟨none, none, none, [], none⟩).t_f with
      | none => exact ⟨_, rfl⟩
      | some tf => rw [hc]; exact ⟨_, rfl⟩
  · have hc : (lines.foldl scanLine ⟨none, none, none, [], none⟩).result_filename = none :=
      foldl_scanLine_none (fun c => c.result_filename) "RF " scanLine_rf_skip lines _ rfl h
    cases h0 : (lines.foldl scanLine ⟨none, none, none, [], none⟩).t_0 with
    | none => exact ⟨_, rfl⟩
    | some t0 =>
      cases h1 : (lines.foldl scanLine ⟨none, none, none, [], none⟩).t_f with
      | none => exact ⟨_, rfl⟩
      | some tf =>
        cases h2 : (lines.foldl scanLine ⟨none, none, none, [], none⟩).dtv with
        | none => exact ⟨_, rfl⟩
        | some dtv => rw [hc]; exact ⟨_, rfl⟩

/-- Witness for C8: an input with `TF`, `DT` and `RF` but no `T0`. -/
theorem missing_directive_fatal_witness :
    ((∀ l ∈ ["TF 2024-01-11", "DT 2", "RF out.txt"], ¬ startswith l "T0 ") ∨
     (∀ l ∈ ["TF 2024-01-11", "DT 2", "RF out.txt"], ¬ startswith l "TF ") ∨
     (∀ l ∈ ["TF 2024-01-11", "DT 2", "RF out.txt"], ¬ startswith l "DT ") ∨
     (∀ l ∈ ["TF 2024-01-11", "DT 2", "RF out.txt"], ¬ startswith l "RF ")) ∧
    ∃ e, read_config ["TF 2024-01-11", "DT 2", "RF out.txt"] = Except.error e :=
  ⟨Or.inl (by decide), missing_directive_fatal _ (Or.inl (by decide))⟩

/-! ### Retrieval-length lemmas for the setup loop -/

theorem getMPJPL_ok_length_le (rs : List JPLResponse) (svs : List (Vec3 × Vec3))
    (h : getMPJPL rs = .ok svs) : svs.length ≤ rs.length := by
  induction rs generalizing svs with
  | nil =>
    simp only [getMPJPL, Except.ok.injEq] at h
    subst h
    exact Nat.le_refl 0
  | cons a rest ih =>
    simp only [getMPJPL] at h
    by_cases hs : a.status_code = 200
    · rw [if_pos hs] at h
      cases hp : a.parsed with
      | some sv =>
        rw [hp] at h
        cases hg : getMPJPL rest with
        | ok tail =>
          rw [hg] at h
          simp only [Except.map, Except.ok.injEq] at h
          subst h
          exact Nat.succ_le_succ (ih tail hg)
        | error e =>
          rw [hg] at h
          simp only [Except.map] at h
          exact absurd h (by simp)
      | none =>
        rw [hp] at h
        exact absurd h (by simp)
    · rw [if_neg hs] at h
      exact (ih svs h).trans (Nat.le_succ _)

theorem getMPJPL_ok_length_lt (rs : List JPLResponse) (svs : List (Vec3 × Vec3))
    (h : getMPJPL rs = .ok svs) (r : JPLResponse) (hr : r ∈ rs)
    (hst : r.status_code ≠ 200) : svs.length < rs.length := by
  induction rs generalizing svs with
  | nil => cases hr
  | cons a rest ih =>
    simp only [getMPJPL] at h
    by_cases hs : a.status_code = 200
    · have hr' : r ∈ rest := by
        rcases List.mem_cons.mp hr with rfl | hmem
        · exact absurd hs hst
        · exact hmem
      rw [if_pos hs] at h
      cases hp : a.parsed with
      | some sv =>
        rw [hp] at h
        cases hg : getMPJPL rest with
        | ok tail =>
          rw [hg] at h
          simp only [Except.map, Except.ok.injEq] at h
          subst h
          exact Nat.succ_lt_succ (ih tail hg hr')
        | error e =>
          rw [hg] at h
          simp only [Except.map] at h
          exact absurd h (by simp)
      | none =>
        rw [hp] at h
        exact absurd h (by simp)
    · rw [if_neg hs] at h
      exact Nat.lt_succ_of_le (getMPJPL_ok_length_le rest svs h)

/-- A state-vector list shorter than the designation list makes the
setup loop hit an out-of-bounds index. -/
theorem setupParticles_short_error (des : List String) (svs : List (Vec3 × Vec3))
    (h : svs.length < des.length) :
    setupParticles des svs = .error "IndexError: list index out of range" := by
  induction des generalizing svs with
  | nil => exact absurd h (Nat.not_lt_zero _)
  | cons d rest ih =>
    cases svs with
    | nil => rfl
    | cons sv tail =>
      simp only [setupParticles]
      rw [ih tail (Nat.lt_of_succ_lt_succ h)]
      rfl

/-- Counterexample to C7 as stated: with one designation whose request
is answered 503, the retrieval loop does return the incomplete (empty)
state-vector list, but the run does not proceed with it — particle
setup fails with an IndexError before propagation can start. -/
theorem retrieval_proceeds_counterexample :
    (JPLResponse.mk 503 none).status_code ≠ 200 ∧
    getMPJPL [JPLResponse.mk 503 none] = .ok [] ∧
    (setupParticles ["2017 BX232"] []).isOk = false :=
  ⟨by decide, rfl, rfl⟩

/-- C7 (amended): when the state-vector service answers a non-success
status for some designation, the error is logged and the retrieval
loop continues with the remaining designations — it does not abort,
and the failed designation contributes no entry to the returned
state-vector list — but whenever at least one retrieval failed, the
run then terminates with an IndexError during particle setup, before
propagation starts, instead of proceeding with the incomplete result
set. -/
theorem retrieval_continues_after_failure (rs1 rs2 : List JPLResponse) (r : JPLResponse)
    (h : r.status_code ≠ 200) :
    getMPJPL (rs1 ++ r :: rs2) = getMPJPL (rs1 ++ rs2) ∧
    ∀ (des : List String) (svs : List (Vec3 × Vec3)),
      des.length = (rs1 ++ r :: rs2).length →
      getMPJPL (rs1 ++ r :: rs2) = .ok svs →
      setupParticles des svs = .error "IndexError: list index out of range" := by
  refine ⟨getMPJPL_erase_failure rs1 rs2 r h, ?_⟩
  intro des svs hlen hok
  apply setupParticles_short_error
  rw [hlen]
  exact getMPJPL_ok_length_lt _ svs hok r (by simp) h

/-- Witness for C7: a single 400 response. -/
theorem retrieval_continues_after_failure_witness :
    (JPLResponse.mk 400 none).status_code ≠ 200 ∧
    (getMPJPL ([] ++ JPLResponse.mk 400 none :: []) = getMPJPL ([] ++ []) ∧
     ∀ (des : List String) (svs : List (Vec3 × Vec3)),
       des.length = ([] ++ JPLResponse.mk 400 none :: []).length →
       getMPJPL ([] ++ JPLResponse.mk 400 none :: []) = .ok svs →
       setupParticles des svs = .error "IndexError: list index out of range") :=
  ⟨by decide, retrieval_continues_after_failure [] [] (JPLResponse.mk 400 none) (by decide)⟩

/-- C10: if at least one designation's retrieval answers a non-success
status (and the successful responses parse), `getMPJPL` returns a list
strictly shorter than the designation list, and the particle-setup
loop of `main`, which reads one state vector per designation index,
raises `IndexError` before propagation begins — partial retrieval
aborts setup instead of silently misaligning particles. -/
theorem partial_retrieval_aborts_setup (MP_des : List String) (rs : List JPLResponse)
    (svs : List (Vec3 × Vec3)) (hlen : MP_des.length = rs.length)
    (hok : getMPJPL rs = .ok svs)
    (r : JPLResponse) (hr : r ∈ rs) (hst : r.status_code ≠ 200) :
    svs.length < MP_des.length ∧
    setupParticles MP_des svs = .error "IndexError: list index out of range" := by
  have hlt : svs.length < MP_des.length := by
    rw [hlen]
    exact getMPJPL_ok_length_lt rs svs hok r hr hst
  exact ⟨hlt, setupParticles_short_error MP_des svs hlt⟩

/-- Witness for C10: one designation whose request gets a 503. -/
theorem partial_retrieval_aborts_setup_witness :
    ["2017 BX232"].length = [JPLResponse.mk 503 none].length ∧
    getMPJPL [JPLResponse.mk 503 none] = .ok [] ∧
    JPLResponse.mk 503 none ∈ [JPLResponse.mk 503 none] ∧
    (JPLResponse.mk 503 none).status_code ≠ 200 ∧
    (([] : List (Vec3 × Vec3)).length < ["2017 BX232"].length ∧
     setupParticles ["2017 BX232"] [] = .error "IndexError: list index out of range") := by
  refine ⟨rfl, rfl, List.mem_singleton.mpr rfl, by decide, ?_⟩
  exact partial_retrieval_aborts_setup ["2017 BX232"] [JPLResponse.mk 503 none] [] rfl rfl
    (JPLResponse.mk 503 none) (List.mem_singleton.mpr rfl) (by decide)

end Minorbit2
